import Mathlib

/-!
Verification of the trust-soc ingest/detection core against its specification.

The definitions below are shallow embeddings of the Python sources:
  * Security Gate        — src/backend/ingest_router.py (ingest_logs),
                           src/backend/sqlite_local/ingest_router.py
                           (ingest_logs, _rate_limit_headers),
                           src/backend/model.py (IdempotencyKey, RawLog)
  * Rollup Aggregator    — src/server/app/detect/rollup.py (ROLLUP_SQL, do_rollup)
  * Outlier Detector     — src/server/app/detect/ml_detect.py
                           (load_or_train, run_iforest, run_ewma) and
                           src/detect/ml_dedct.py (load_or_train, run_iforest)
  * Hybrid Scorer        — src/server/app/detect/hybrid_detect.py (run_hybrid)
  * Pattern Scanner      — src/server/app/detect/yara_batch_scanner.py
                           (scan_one, fetch_targets, persist_events,
                            mark_processed, main)

Machine floats are embedded as exact rationals, SQL tables as Lean lists,
and timestamps as natural numbers of unix seconds.  External engines
(the fitted isolation-forest scorer, the YARA matcher, the SHA-256 hash)
are parameters of the embedded functions: the properties proved below
quantify over their outputs, never over their internals.
-/

namespace TrustSoc

/-! ## Security Gate data model (src/backend/model.py) -/

/-- One record of an ingest batch (schemas.RecordItem). -/
structure RecordItem where
  ts : Nat
  sourceType : String
  rawLine : String
  tags : List String
deriving DecidableEq

/-- A row of the idempotency_keys table (model.IdempotencyKey).  The table
carries the two uniqueness keys (client_id, agent_id, idem_key) and
(client_id, agent_id, nonce, ts_bucket). -/
structure IdemEntry where
  clientId : String
  agentId : String
  idemKey : String
  nonce : String
  tsBucket : String
deriving DecidableEq

/-- A row of the raw_logs table (model.RawLog). -/
structure RawLogRow where
  ts : Nat
  clientId : String
  host : String
  agentId : String
  sourceType : String
  rawLine : String
  tags : List String
  hashSha256 : String
  insertedAt : Nat
deriving DecidableEq

/-- The durable state the Security Gate reads and writes for the claims under
verification: the idempotency table and the raw-record store.  (The
per-record Event/Incident/AuditLog inserts of ingest_logs are outside the
footprint of the properties below, which quantify over IdempotencyEntry
and RawRecords only.) -/
structure GateState where
  idem : List IdemEntry
  raws : List RawLogRow
deriving DecidableEq

/-- An ingest request after header extraction: body metadata plus the
X-Idempotency-Key, X-Nonce headers and the ts_bucket already derived from
X-Request-Timestamp by make_ts_bucket. -/
structure IngestReq where
  clientId : String
  host : String
  agentId : String
  idemKey : String
  nonce : String
  tsBucket : String
  records : List RecordItem
deriving DecidableEq

/-- Outcome of ingest_logs: HTTP 202 with an accepted count, HTTP 409
REPLAY_BLOCKED, or HTTP 429 with a Retry-After header value. -/
inductive IngestResult where
  | ok (accepted : Nat)
  | replayConflict
  | backpressure (retryAfter : Nat)
deriving DecidableEq

/-- The filter_by of the idempotency check: entry matches the request's
(client_id, agent_id, idem_key). -/
def idemMatch (rq : IngestReq) (e : IdemEntry) : Bool :=
  e.clientId == rq.clientId && e.agentId == rq.agentId && e.idemKey == rq.idemKey

/-- The filter_by of the replay check: entry matches the request's
(client_id, agent_id, nonce, ts_bucket). -/
def replayMatch (rq : IngestReq) (e : IdemEntry) : Bool :=
  e.clientId == rq.clientId && e.agentId == rq.agentId &&
    e.nonce == rq.nonce && e.tsBucket == rq.tsBucket

/-- The backpressure count query: raw_logs rows of this (agent, client) with
inserted_at inside the trailing window of the given length in seconds. -/
def recentRawCount (now window : Nat) (rq : IngestReq) (st : GateState) : Nat :=
  (st.raws.filter fun r =>
    r.agentId == rq.agentId && r.clientId == rq.clientId &&
      decide (now - window ≤ r.insertedAt)).length

/-- The IdempotencyKey row inserted on accept. -/
def newIdemEntry (rq : IngestReq) : IdemEntry :=
  ⟨rq.clientId, rq.agentId, rq.idemKey, rq.nonce, rq.tsBucket⟩

/-- The RawLog row built from one record on accept; sha is the SHA-256
hex-digest function applied to raw_line. -/
def newRawRow (sha : String → String) (now : Nat) (rq : IngestReq)
    (rec : RecordItem) : RawLogRow :=
  ⟨rec.ts, rq.clientId, rq.host, rq.agentId, rec.sourceType, rec.rawLine,
    rec.tags, sha rec.rawLine, now⟩

/-- BACKPRESSURE_WINDOW_SECONDS of src/backend/ingest_router.py. -/
def backendWindowSeconds : Nat := 30

/-- BACKPRESSURE_MAX_RECORDS of src/backend/ingest_router.py. -/
def backendMaxRecords : Nat := 50

/-- BACKPRESSURE_RETRY_AFTER_SECONDS of src/backend/ingest_router.py. -/
def backendRetryAfterSeconds : Nat := 1

/-- Embedding of ingest_logs of src/backend/ingest_router.py from the
idempotency check on (the earlier auth / timestamp-skew / payload-hash
short-circuits have already passed).  In order: idempotency duplicate →
202 accepted 0; replay → 409; backpressure count, then simulated queue
overload → 429 (db.rollback discards the pending insert); otherwise the
IdempotencyKey row and one RawLog row per record are persisted and the
batch is accepted. -/
def backendIngestLogs (sha : String → String) (now : Nat) (queueOverloaded : Bool)
    (st : GateState) (rq : IngestReq) : IngestResult × GateState :=
  if st.idem.any (idemMatch rq) then
    (.ok 0, st)
  else if st.idem.any (replayMatch rq) then
    (.replayConflict, st)
  else if backendMaxRecords < recentRawCount now backendWindowSeconds rq st then
    (.backpressure backendRetryAfterSeconds, st)
  else if queueOverloaded then
    (.backpressure backendRetryAfterSeconds, st)
  else
    (.ok rq.records.length,
      ⟨st.idem ++ [newIdemEntry rq],
       st.raws ++ rq.records.map (newRawRow sha now rq)⟩)

/-- Embedding of _rate_limit_headers of src/backend/sqlite_local/ingest_router.py:
overage = max(0, count − limit); Retry-After = base when no overage, else
base + ceil(overage / step) with step = max(1, limit / 5); the result is
clamped by max(1, min(maxRetryAfter, ·)). -/
def rateLimitRetryAfter (limit base maxRA count : Nat) : Nat :=
  let overage := count - limit
  let step := max 1 (limit / 5)
  let ra := if overage = 0 then base else base + (overage + step - 1) / step
  max 1 (min maxRA ra)

/-- Embedding of ingest_logs of src/backend/sqlite_local/ingest_router.py from
the idempotency check on.  Differences from the backend variant: the
backpressure condition is recent_count ≥ limit, the Retry-After value comes
from _rate_limit_headers, and an empty batch commits the IdempotencyKey row
with accepted 0.  The window/limit/retry bounds are env-configured
(INGEST_RATE_WINDOW_SECONDS etc.), so they are parameters here. -/
def sqliteIngestLogs (window limit base maxRA : Nat) (sha : String → String)
    (now : Nat) (queueOverloaded : Bool) (st : GateState) (rq : IngestReq) :
    IngestResult × GateState :=
  if st.idem.any (idemMatch rq) then
    (.ok 0, st)
  else if st.idem.any (replayMatch rq) then
    (.replayConflict, st)
  else if limit ≤ recentRawCount now window rq st then
    (.backpressure (rateLimitRetryAfter limit base maxRA
      (recentRawCount now window rq st)), st)
  else if queueOverloaded then
    (.backpressure (rateLimitRetryAfter limit base maxRA
      (recentRawCount now window rq st + 1)), st)
  else if rq.records = [] then
    (.ok 0, ⟨st.idem ++ [newIdemEntry rq], st.raws⟩)
  else
    (.ok rq.records.length,
      ⟨st.idem ++ [newIdemEntry rq],
       st.raws ++ rq.records.map (newRawRow sha now rq)⟩)

/-! ## Hybrid Scorer (src/server/app/detect/hybrid_detect.py, run_hybrid) -/

/-- W_RULE of hybrid_detect.py. -/
def W_RULE : ℚ := 1

/-- W_ML of hybrid_detect.py. -/
def W_ML : ℚ := 7 / 10

/-- W_FP of hybrid_detect.py. -/
def W_FP : ℚ := 3 / 10

/-- Final_Score = W_rule * Rule_Bool + W_ml * ML_Score − W_fp * FP_Penalty
(run_hybrid step 4).  rule_bool is 1 when a yara_match event exists in the
window, else 0; fetch_fp_penalty currently always returns 0. -/
def finalScore (ruleBool : Nat) (mlScore fpPenalty : ℚ) : ℚ :=
  W_RULE * ruleBool + W_ML * mlScore - W_FP * fpPenalty

/-- Severity classes assigned by run_hybrid step 5; noEvent is the
low-score branch that skips event creation but still marks the rollup
processed. -/
inductive HybridSeverity where
  | noEvent
  | medium
  | high
  | critical
deriving DecidableEq

/-- The first-match severity rule of run_hybrid step 5: rule_bool = 1 and
final_score > 1.0 → Critical; final_score ≥ 0.8 → High; final_score ≥ 0.5
→ Medium; otherwise no event. -/
def hybridSeverity (ruleBool : Nat) (fs : ℚ) : HybridSeverity :=
  if ruleBool = 1 ∧ fs > 1 then .critical
  else if fs ≥ 8 / 10 then .high
  else if fs ≥ 5 / 10 then .medium
  else .noEvent

/-- Severity rank in the order no event < Medium < High < Critical. -/
def sevRank : HybridSeverity → Nat
  | .noEvent => 0
  | .medium => 1
  | .high => 2
  | .critical => 3

/-! ## Outlier Detector first-start lifecycle (load_or_train) -/

/-- Outcome of load_or_train: an existing artifact is loaded; sys.exit(1)
refuses to start; or an IForest pipeline is fitted on the given training
rows (the fitted estimator itself is external, so the outcome records the
data it was fitted on). -/
inductive TrainOutcome (α : Type) where
  | loaded
  | fatal
  | trained (trainingSet : List α)
deriving DecidableEq

/-- The hard-coded dummy feature matrix [[100, 0.0, 0.0], [500, 0.1, 0.0]]
that load_or_train of src/server/app/detect/ml_detect.py substitutes when
fewer than 50 training rows exist. -/
def mlDetectDummyX : List (ℚ × ℚ × ℚ) := [(100, 0, 0), (500, 1 / 10, 0)]

/-- Embedding of load_or_train of src/server/app/detect/ml_detect.py: load
when both artifact files exist; otherwise query up to 5000 feature rows of
the last 7 days (the df parameter) and fit — on the dummy matrix when the
query returned fewer than 50 rows, on the queried rows otherwise. -/
def mlDetectLoadOrTrain (artifactExists : Bool) (df : List (ℚ × ℚ × ℚ)) :
    TrainOutcome (ℚ × ℚ × ℚ) :=
  if artifactExists then .loaded
  else if df.length < 50 then .trained mlDetectDummyX
  else .trained df

/-- Embedding of load_or_train of src/detect/ml_dedct.py: load when both
artifact files exist; otherwise query the 7-day training rows (five
features) and sys.exit(1) when the frame is empty, else fit on the queried
rows. -/
def mlDedctLoadOrTrain (artifactExists : Bool)
    (df : List (ℚ × ℚ × ℚ × ℚ × ℚ)) : TrainOutcome (ℚ × ℚ × ℚ × ℚ × ℚ) :=
  if artifactExists then .loaded
  else if df = [] then .fatal
  else .trained df

/-! ## Rollup Aggregator (src/server/app/detect/rollup.py) -/

/-- The columns of normalized_logs read by ROLLUP_SQL. -/
structure NormRow where
  clientId : String
  hostName : String
  sourceIp : String
  httpStatus : Nat
  urlPath : String
  userName : String
  ts : Nat
deriving DecidableEq

/-- A row of a feature_rollup table (the 0001_initial schema: aggregates from
ROLLUP_SQL plus the detector columns, whose defaults are false/NULL). -/
structure FeatureRollup where
  clientId : String
  hostName : String
  sourceIp : String
  windowStart : Nat
  windowEnd : Nat
  eventCount : Nat
  error4xxRatio : ℚ
  error5xxRatio : ℚ
  uniqueUrlCount : Nat
  uniqueUserCount : Nat
  mlScore : Option ℚ
  mlAnomaly : Bool
  mlProcessed : Bool
  ewmaAnomaly : Bool
  hybridProcessed : Bool
  finalScore : Option ℚ
deriving DecidableEq

/-- The rollup conflict key (client_id, host_name, source_ip, window_start). -/
def RKey : Type := String × String × String × Nat

instance : DecidableEq RKey := by
  unfold RKey
  infer_instance

/-- The conflict key of a rollup row. -/
def rkey (r : FeatureRollup) : RKey :=
  (r.clientId, r.hostName, r.sourceIp, r.windowStart)

/-- The key a normalized log row belongs to for window size w seconds:
time_bucket floors the timestamp to a multiple of w. -/
def logKey (w : Nat) (l : NormRow) : RKey :=
  (l.clientId, l.hostName, l.sourceIp, l.ts / w * w)

/-- The retention filter of ROLLUP_SQL: rows of the trailing ret seconds. -/
def retainedLogs (now ret : Nat) (logs : List NormRow) : List NormRow :=
  logs.filter fun l => decide (now - ret ≤ l.ts)

/-- The GROUP BY group of one key. -/
def rollupGroup (w : Nat) (logs : List NormRow) (k : RKey) : List NormRow :=
  logs.filter fun l => decide (logKey w l = k)

/-- The SELECT aggregates of ROLLUP_SQL for one group: COUNT(*), the 4xx and
5xx ratios, the distinct url_path and user_name counts; the detector
columns take the table defaults of a fresh insert. -/
def computeAgg (w : Nat) (g : List NormRow) (k : RKey) : FeatureRollup :=
  { clientId := k.1, hostName := k.2.1, sourceIp := k.2.2.1,
    windowStart := k.2.2.2, windowEnd := k.2.2.2 + w,
    eventCount := g.length,
    error4xxRatio :=
      ((g.countP fun l => decide (400 ≤ l.httpStatus ∧ l.httpStatus ≤ 499)) : ℚ) /
        (g.length : ℚ),
    error5xxRatio :=
      ((g.countP fun l => decide (500 ≤ l.httpStatus ∧ l.httpStatus ≤ 599)) : ℚ) /
        (g.length : ℚ),
    uniqueUrlCount := (g.map (·.urlPath)).dedup.length,
    uniqueUserCount := (g.map (·.userName)).dedup.length,
    mlScore := none, mlAnomaly := false, mlProcessed := false,
    ewmaAnomaly := false, hybridProcessed := false, finalScore := none }

/-- The distinct keys the rollup run materializes (empty buckets never arise:
every key comes from a retained record). -/
def rollupKeys (w now ret : Nat) (logs : List NormRow) : List RKey :=
  ((retainedLogs now ret logs).map (logKey w)).dedup

/-- The aggregate row one run computes for key k. -/
def aggRow (w now ret : Nat) (logs : List NormRow) (k : RKey) : FeatureRollup :=
  computeAgg w (rollupGroup w (retainedLogs now ret logs) k) k

/-- The DO UPDATE SET of ROLLUP_SQL applied to a conflicting row r: exactly
the five aggregate fields are replaced by the excluded row's values. -/
def aggPatch (nr r : FeatureRollup) : FeatureRollup :=
  { r with eventCount := nr.eventCount, error4xxRatio := nr.error4xxRatio,
           error5xxRatio := nr.error5xxRatio,
           uniqueUrlCount := nr.uniqueUrlCount,
           uniqueUserCount := nr.uniqueUserCount }

/-- The ON CONFLICT upsert of ROLLUP_SQL: when a row with the conflict key
exists, replace exactly the five aggregate fields (DO UPDATE SET), else
insert the new row. -/
def upsertAgg (t : List FeatureRollup) (nr : FeatureRollup) : List FeatureRollup :=
  if t.any fun r => decide (rkey r = rkey nr) then
    t.map fun r => if rkey r = rkey nr then aggPatch nr r else r
  else t ++ [nr]

/-- Embedding of do_rollup for one window size: compute the aggregate of every
key of the retained records and upsert each into the table. -/
def doRollup (w ret now : Nat) (logs : List NormRow) (t : List FeatureRollup) :
    List FeatureRollup :=
  (rollupKeys w now ret logs).foldl (fun acc k => upsertAgg acc (aggRow w now ret logs k)) t

/-- The five aggregate fields replaced on conflict. -/
def aggFields (r : FeatureRollup) : Nat × ℚ × ℚ × Nat × Nat :=
  (r.eventCount, r.error4xxRatio, r.error5xxRatio, r.uniqueUrlCount, r.uniqueUserCount)

/-- The detector-owned fields, which ROLLUP_SQL's DO UPDATE never touches. -/
def detectorFields (r : FeatureRollup) :
    Option ℚ × Bool × Bool × Bool × Bool × Option ℚ :=
  (r.mlScore, r.mlAnomaly, r.mlProcessed, r.ewmaAnomaly, r.hybridProcessed, r.finalScore)

/-! ## Outlier Detector scoring cycle (run_iforest) -/

/-- The feature vector run_iforest reads from a rollup row
(event_count, error4xx_ratio, error5xx_ratio). -/
def rollupFeatures (r : FeatureRollup) : ℚ × ℚ × ℚ :=
  ((r.eventCount : ℚ), r.error4xxRatio, r.error5xxRatio)

/-- The WHERE clause of run_iforest's selection: ml_processed is false and
window_start lies within the trailing hour. -/
def iforestEligible (now : Nat) (r : FeatureRollup) : Bool :=
  !r.mlProcessed && decide (now - 3600 ≤ r.windowStart)

/-- The UPDATE run_iforest applies to one selected row: ml_score becomes the
decision score of the scaler-standardized feature vector, ml_anomaly
becomes (score ≥ threshold), ml_processed becomes true. -/
def iforestUpdate (scaler : ℚ × ℚ × ℚ → ℚ × ℚ × ℚ) (dec : ℚ × ℚ × ℚ → ℚ)
    (thresh : ℚ) (r : FeatureRollup) : FeatureRollup :=
  { r with mlScore := some (dec (scaler (rollupFeatures r))),
           mlAnomaly := decide (dec (scaler (rollupFeatures r)) ≥ thresh),
           mlProcessed := true }

/-- Embedding of run_iforest of src/server/app/detect/ml_detect.py: every
selected row is scored and updated; unselected rows are untouched.  The
fitted scaler transform and the isolation-forest decision function are
external artifacts, passed as parameters. -/
def runIforest (now : Nat) (scaler : ℚ × ℚ × ℚ → ℚ × ℚ × ℚ)
    (dec : ℚ × ℚ × ℚ → ℚ) (thresh : ℚ) (t : List FeatureRollup) :
    List FeatureRollup :=
  t.map fun r => if iforestEligible now r then iforestUpdate scaler dec thresh r else r

/-- The rows a run_iforest cycle would select from the table. -/
def iforestTargets (now : Nat) (t : List FeatureRollup) : List FeatureRollup :=
  t.filter (iforestEligible now)

/-- The per-row effect of run_hybrid's update for one key: set
hybrid_processed and, when a final_score value is carried, store it
(SQL_UPD_SCORE / SQL_UPD_ONLY_PROCESSED); other rows and all ml fields are
untouched. -/
def hybridRowPatch (k : RKey) (fs : Option ℚ) (r : FeatureRollup) : FeatureRollup :=
  if rkey r = k then
    match fs with
    | some v => { r with hybridProcessed := true, finalScore := some v }
    | none => { r with hybridProcessed := true }
  else r

/-- The per-key UPDATE of run_hybrid step 10 over the whole table. -/
def hybridApplyUpdate (k : RKey) (fs : Option ℚ) (t : List FeatureRollup) :
    List FeatureRollup :=
  t.map (hybridRowPatch k fs)

/-- The batch of per-key updates run_hybrid commits for its update_keys. -/
def hybridMarkProcessed (ups : List (RKey × Option ℚ)) (t : List FeatureRollup) :
    List FeatureRollup :=
  ups.foldl (fun acc kv => hybridApplyUpdate kv.1 kv.2 acc) t

/-- The UPDATE of run_ewma of src/detect/ml_dedct.py on anomaly: set
ewma_anomaly on the rollup rows of the anomalous window; nothing else. -/
def ewmaSetAnomaly (ws : Nat) (t : List FeatureRollup) : List FeatureRollup :=
  t.map fun r => if r.windowStart = ws then { r with ewmaAnomaly := true } else r

/-! ## Derived predicates and concrete instances -/

/-- A table is up to date for an aggregate row nr when some row carries nr's
key and every row carrying it already holds nr's aggregate fields. -/
def upToDate (nr : FeatureRollup) (t : List FeatureRollup) : Prop :=
  (∃ r ∈ t, rkey r = rkey nr) ∧
    ∀ r ∈ t, rkey r = rkey nr → aggFields r = aggFields nr

/-- A concrete normalized log row used to instantiate the rollup claims. -/
def c4Log : NormRow := ⟨"c", "h", "s", 200, "/u", "alice", 700⟩

/-- A concrete late-arriving log row (timestamp 800, within retention 600 of
now = 1000). -/
def c4Late : NormRow := ⟨"c", "h", "s", 404, "/v", "bob", 800⟩

/-- A rollup row whose window_start lies outside the trailing hour of the
detector run at now = 100000 while ml_processed is still false. -/
def staleRollupRow : FeatureRollup :=
  ⟨"c", "h", "s", 0, 300, 1, 0, 0, 1, 1, none, false, false, false, false, none⟩

/-! ## Pattern Scanner (src/server/app/detect/yara_batch_scanner.py) -/

/-- A normalized_logs row as read by fetch_targets, with the
processed_by_yara idempotency flag.  The table is kept in @timestamp
order, so the ORDER BY of fetch_targets is the identity here. -/
structure ScanItem where
  logId : Nat
  clientId : String
  hostName : String
  category : String
  filePath : Option String
  ts : Nat
  processedByYara : Bool
deriving DecidableEq

/-- One evidence row scan_one builds from a YARA string match (rule, offset
and the bounded hex/ASCII rendering of the surrounding bytes). -/
structure Evidence where
  logId : Nat
  ruleName : String
  offset : Nat
  snippetHex : String
  snippetAscii : String
deriving DecidableEq

/-- What the external filesystem/decompression/YARA machinery does for one
item: a completed match list, a FileNotFoundError, or any other
scan-engine exception. -/
inductive ScanAttempt where
  | ok (evts : List Evidence)
  | fileMissing
  | scanFailed
deriving DecidableEq

/-- Embedding of scan_one's exception policy: a completed scan returns its
events with ok = true; FileNotFoundError returns no events but still
ok = true (so the item is marked processed and never rescanned); any other
exception returns ok = false (the item stays unflagged and is retried). -/
def scanOne (logId : Nat) (att : ScanAttempt) : Nat × List Evidence × Bool :=
  match att with
  | .ok evts => (logId, evts, true)
  | .fileMissing => (logId, [], true)
  | .scanFailed => (logId, [], false)

/-- The store the scanner cycle reads and writes: the normalized_logs items
and the events table. -/
structure ScanDB where
  items : List ScanItem
  events : List Evidence
deriving DecidableEq

/-- The WHERE clause of fetch_targets: a file-category item with a file path,
not yet processed by YARA, within the log-retention window. -/
def scanEligible (now retSec : Nat) (i : ScanItem) : Bool :=
  i.category == "file" && i.filePath.isSome && !i.processedByYara &&
    decide (now - retSec ≤ i.ts)

/-- Embedding of fetch_targets: the first batchSize eligible items. -/
def fetchTargets (now retSec batchSize : Nat) (items : List ScanItem) : List ScanItem :=
  (items.filter (scanEligible now retSec)).take batchSize

/-- The scan_one results of one batch, one per target. -/
def scanResults (now retSec batchSize : Nat) (att : ScanItem → ScanAttempt)
    (db : ScanDB) : List (Nat × List Evidence × Bool) :=
  (fetchTargets now retSec batchSize db.items).map fun i => scanOne i.logId (att i)

/-- success_ids of main: the log ids whose scan returned ok. -/
def scanSuccessIds (now retSec batchSize : Nat) (att : ScanItem → ScanAttempt)
    (db : ScanDB) : List Nat :=
  ((scanResults now retSec batchSize att db).filter fun x => x.2.2).map fun x => x.1

/-- all_events of main: every matched-evidence row of the batch. -/
def scanEvents (now retSec batchSize : Nat) (att : ScanItem → ScanAttempt)
    (db : ScanDB) : List Evidence :=
  ((scanResults now retSec batchSize att db).map fun x => x.2.1).flatten

/-- persist_events: append the batch's evidence rows to the events table. -/
def persistStep (db : ScanDB) (evts : List Evidence) : ScanDB :=
  { db with events := db.events ++ evts }

/-- mark_processed: set processed_by_yara on the successful log ids; failed
ids are left untouched. -/
def markStep (db : ScanDB) (ids : List Nat) : ScanDB :=
  { db with items := db.items.map fun i =>
      if i.logId ∈ ids then { i with processedByYara := true } else i }

/-- The cycle of main interrupted right after persist_events and before
mark_processed (the crash window the failure policy is about). -/
def runScanCycleCrash (now retSec batchSize : Nat) (att : ScanItem → ScanAttempt)
    (db : ScanDB) : ScanDB :=
  persistStep db (scanEvents now retSec batchSize att db)

/-- The full cycle of main: scan the batch, persist all evidence, then mark
the successful items processed. -/
def runScanCycle (now retSec batchSize : Nat) (att : ScanItem → ScanAttempt)
    (db : ScanDB) : ScanDB :=
  markStep (persistStep db (scanEvents now retSec batchSize att db))
    (scanSuccessIds now retSec batchSize att db)

/-- A concrete file item whose source file will be missing. -/
def c7ItemA : ScanItem := ⟨1, "c", "h", "file", some "/a", 100, false⟩

/-- A concrete file item whose scan will raise a non-missing-file error. -/
def c7ItemB : ScanItem := ⟨2, "c", "h", "file", some "/b", 101, false⟩

/-- A concrete scanner store holding the two items and no events. -/
def c7DB : ScanDB := ⟨[c7ItemA, c7ItemB], []⟩

/-- A concrete scan oracle: item 1 hits FileNotFoundError, the rest fail with
another exception. -/
def c7Att : ScanItem → ScanAttempt := fun it =>
  if it.logId = 1 then .fileMissing else .scanFailed

/-! ## Drift Detector (run_ewma of src/server/app/detect/ml_detect.py)

The detector reads the per-window total event counts in ascending window
order, computes pandas ewm(span=12).mean() and .std() over the whole
series (adjust = true weights, debiased variance), and flags the last
point when it exceeds mean + 3·std at that last index — both statistics
include the evaluated point itself.  The floats are embedded as exact
rationals; the weighted sums are carried by one structural fold. -/

/-- One step of the weighted-sum fold: with decay r the state
(Σ r-weights, Σ squared weights, Σ weight·x, Σ weight·x²) absorbs the next
point (pandas adjust = true: each old weight is multiplied by r, the new
point enters with weight 1). -/
def ewmaStep (r : ℚ) (st : ℚ × ℚ × ℚ × ℚ) (x : ℚ) : ℚ × ℚ × ℚ × ℚ :=
  (1 + r * st.1, 1 + r ^ 2 * st.2.1, x + r * st.2.2.1, x ^ 2 + r * st.2.2.2)

/-- The four weighted sums of the series at its last index. -/
def ewmaSums (r : ℚ) (xs : List ℚ) : ℚ × ℚ × ℚ × ℚ :=
  xs.foldl (ewmaStep r) (0, 0, 0, 0)

/-- pandas ewm(span).mean() at the last index: the weighted mean with decay
r = 1 − 2/(span+1). -/
def ewmaMeanLast (span : ℕ) (xs : List ℚ) : ℚ :=
  ((ewmaSums (1 - 2 / ((span : ℚ) + 1)) xs).2.2.1) /
    ((ewmaSums (1 - 2 / ((span : ℚ) + 1)) xs).1)

/-- pandas ewm(span).var(bias = false) at the last index: the weighted
variance Σw·x²/Σw − mean², debiased by (Σw)²/((Σw)² − Σw²). -/
def ewmaVarLast (span : ℕ) (xs : List ℚ) : ℚ :=
  let s := ewmaSums (1 - 2 / ((span : ℚ) + 1)) xs
  (s.2.2.2 / s.1 - (s.2.2.1 / s.1) ^ 2) * (s.1 ^ 2 / (s.1 ^ 2 - s.2.1))

/-- Whether v exceeds the series' EWMA mean by more than c EWMA standard
deviations: v > mean + c·std is stated square-free as
v − mean > 0 ∧ (v − mean)² > c²·var, exactly equivalent for c ≥ 0 since
std = √var ≥ 0. -/
def sigmaExceeds (span : ℕ) (c : ℚ) (xs : List ℚ) (v : ℚ) : Bool :=
  decide (0 < v - ewmaMeanLast span xs ∧
    c ^ 2 * ewmaVarLast span xs < (v - ewmaMeanLast span xs) ^ 2)

/-- Embedding of run_ewma's anomaly test: with fewer than 10 points the
detector returns without evaluating; otherwise the last point is flagged
exactly when it exceeds ewm_mean + 3·ewm_std of the series including that
point (upper = last_row.ewm_mean + 3·last_row.ewm_std;
flag = last_row.total_events > upper). -/
def runEwmaFlagged (span : ℕ) (c : ℚ) (xs : List ℚ) : Bool :=
  if xs.length < 10 then false
  else sigmaExceeds span c xs (xs.getLastD 0)

/-- Twenty stable points alternating 99/101 (mean 100, low variance). -/
def c6Stable : List ℚ :=
  [99, 101, 99, 101, 99, 101, 99, 101, 99, 101,
   99, 101, 99, 101, 99, 101, 99, 101, 99, 101]

/-- The stable prefix followed by one spike at 111, which lies more than ten
EWMA standard deviations above the stable prefix's EWMA mean (≈ 100.08 +
10·1.04 ≈ 110.53). -/
def c6Series : List ℚ := c6Stable ++ [111]

/-! ## Security Gate lemmas and claim theorems -/

lemma idemMatch_eq_true (rq : IngestReq) (e : IdemEntry) :
    idemMatch rq e = true ↔
      e.clientId = rq.clientId ∧ e.agentId = rq.agentId ∧ e.idemKey = rq.idemKey := by
  simp [idemMatch, and_assoc]

lemma replayMatch_eq_true (rq : IngestReq) (e : IdemEntry) :
    replayMatch rq e = true ↔
      e.clientId = rq.clientId ∧ e.agentId = rq.agentId ∧
        e.nonce = rq.nonce ∧ e.tsBucket = rq.tsBucket := by
  simp [replayMatch, and_assoc]

lemma any_idemMatch_false {st : GateState} {rq : IngestReq}
    (h : ∀ e ∈ st.idem,
      ¬(e.clientId = rq.clientId ∧ e.agentId = rq.agentId ∧ e.idemKey = rq.idemKey)) :
    st.idem.any (idemMatch rq) = false := by
  rw [List.any_eq_false]
  intro e he
  rw [idemMatch_eq_true]
  exact h e he

lemma any_replayMatch_false {st : GateState} {rq : IngestReq}
    (h : ∀ e ∈ st.idem,
      ¬(e.clientId = rq.clientId ∧ e.agentId = rq.agentId ∧
          e.nonce = rq.nonce ∧ e.tsBucket = rq.tsBucket)) :
    st.idem.any (replayMatch rq) = false := by
  rw [List.any_eq_false]
  intro e he
  rw [replayMatch_eq_true]
  exact h e he

lemma backendIngestLogs_of_dup (sha : String → String) (now : Nat)
    (q : Bool) (st : GateState) (rq : IngestReq)
    (h : ∃ e ∈ st.idem,
      e.clientId = rq.clientId ∧ e.agentId = rq.agentId ∧ e.idemKey = rq.idemKey) :
    backendIngestLogs sha now q st rq = (.ok 0, st) := by
  have hany : st.idem.any (idemMatch rq) = true := by
    rw [List.any_eq_true]
    obtain ⟨e, he, h1⟩ := h
    exact ⟨e, he, (idemMatch_eq_true rq e).mpr h1⟩
  simp [backendIngestLogs, hany]

/-- C1: an ingest request whose (tenant, agent, nonce, time-bucket) tuple is
already present in the idempotency table, while its idempotency key matches
no stored entry for that (tenant, agent), is rejected as a replay (HTTP
409); the request persists no new IdempotencyEntry and no RawRecords (the
state is returned unchanged), and the outcome is distinct from the
idempotent accepted = 0 duplicate response. -/
theorem ingest_replay_rejected (sha : String → String) (now : Nat) (q : Bool)
    (st : GateState) (rq : IngestReq)
    (hno : ∀ e ∈ st.idem,
      ¬(e.clientId = rq.clientId ∧ e.agentId = rq.agentId ∧ e.idemKey = rq.idemKey))
    (hre : ∃ e ∈ st.idem,
      e.clientId = rq.clientId ∧ e.agentId = rq.agentId ∧
        e.nonce = rq.nonce ∧ e.tsBucket = rq.tsBucket) :
    backendIngestLogs sha now q st rq = (.replayConflict, st) ∧
      IngestResult.replayConflict ≠ IngestResult.ok 0 := by
  have h1 : st.idem.any (idemMatch rq) = false := any_idemMatch_false hno
  have h2 : st.idem.any (replayMatch rq) = true := by
    rw [List.any_eq_true]
    obtain ⟨e, he, hq⟩ := hre
    exact ⟨e, he, (replayMatch_eq_true rq e).mpr hq⟩
  refine ⟨?_, by simp⟩
  simp [backendIngestLogs, h1, h2]

/-- Witness for C1: a request reusing the stored nonce and time bucket with a
fresh idempotency key is rejected as replay and the state is unchanged. -/
theorem ingest_replay_rejected_witness :
    backendIngestLogs (fun _ => "d") 1000 false
        ⟨[⟨"c", "a", "k1", "n", "b"⟩], []⟩
        ⟨"c", "host", "a", "k2", "n", "b", []⟩ =
      (.replayConflict, ⟨[⟨"c", "a", "k1", "n", "b"⟩], []⟩) ∧
      IngestResult.replayConflict ≠ IngestResult.ok 0 :=
  ingest_replay_rejected (fun _ => "d") 1000 false
    ⟨[⟨"c", "a", "k1", "n", "b"⟩], []⟩
    ⟨"c", "host", "a", "k2", "n", "b", []⟩
    (by decide) (by decide)

/-- C2: an ingest request whose (tenant, agent, idempotency key) triple is
already present in the idempotency table returns success with accepted = 0
and leaves the state unchanged: the batch is not reprocessed and no new
RawRecords are created. -/
theorem ingest_duplicate_noop (sha : String → String) (now : Nat) (q : Bool)
    (st : GateState) (rq : IngestReq)
    (h : ∃ e ∈ st.idem,
      e.clientId = rq.clientId ∧ e.agentId = rq.agentId ∧ e.idemKey = rq.idemKey) :
    backendIngestLogs sha now q st rq = (.ok 0, st) :=
  backendIngestLogs_of_dup sha now q st rq h

/-- Witness for C2: resubmitting with the stored idempotency key yields
accepted = 0 and an unchanged state. -/
theorem ingest_duplicate_noop_witness :
    backendIngestLogs (fun _ => "d") 1000 false
        ⟨[⟨"c", "a", "k1", "n", "b"⟩], []⟩
        ⟨"c", "host", "a", "k1", "n2", "b2", [⟨5, "auth", "line", []⟩]⟩ =
      (.ok 0, ⟨[⟨"c", "a", "k1", "n", "b"⟩], []⟩) :=
  ingest_duplicate_noop (fun _ => "d") 1000 false
    ⟨[⟨"c", "a", "k1", "n", "b"⟩], []⟩
    ⟨"c", "host", "a", "k1", "n2", "b2", [⟨5, "auth", "line", []⟩]⟩
    (by decide)

/-- C10: when the (tenant, agent, idempotency key) triple already exists, the
gate answers accepted = 0 without reading the request's records: two
duplicate submissions carrying different payloads receive identical
responses and neither persists anything. -/
theorem ingest_duplicate_ignores_payload (sha : String → String) (now : Nat)
    (q : Bool) (st : GateState) (rq : IngestReq) (recs₁ recs₂ : List RecordItem)
    (h : ∃ e ∈ st.idem,
      e.clientId = rq.clientId ∧ e.agentId = rq.agentId ∧ e.idemKey = rq.idemKey) :
    backendIngestLogs sha now q st { rq with records := recs₁ } = (.ok 0, st) ∧
      backendIngestLogs sha now q st { rq with records := recs₂ } = (.ok 0, st) ∧
      backendIngestLogs sha now q st { rq with records := recs₁ } =
        backendIngestLogs sha now q st { rq with records := recs₂ } := by
  have h₁ := backendIngestLogs_of_dup sha now q st { rq with records := recs₁ } h
  have h₂ := backendIngestLogs_of_dup sha now q st { rq with records := recs₂ } h
  exact ⟨h₁, h₂, h₁.trans h₂.symm⟩

/-- Witness for C10: two duplicates with different record payloads both answer
accepted = 0 on an unchanged state. -/
theorem ingest_duplicate_ignores_payload_witness :
    backendIngestLogs (fun _ => "d") 1000 false
        ⟨[⟨"c", "a", "k1", "n", "b"⟩], []⟩
        { clientId := "c", host := "host", agentId := "a", idemKey := "k1",
          nonce := "n2", tsBucket := "b2",
          records := [⟨5, "auth", "lineA", []⟩] } = (.ok 0, ⟨[⟨"c", "a", "k1", "n", "b"⟩], []⟩) ∧
      backendIngestLogs (fun _ => "d") 1000 false
        ⟨[⟨"c", "a", "k1", "n", "b"⟩], []⟩
        { clientId := "c", host := "host", agentId := "a", idemKey := "k1",
          nonce := "n2", tsBucket := "b2",
          records := [] } = (.ok 0, ⟨[⟨"c", "a", "k1", "n", "b"⟩], []⟩) ∧
      backendIngestLogs (fun _ => "d") 1000 false
        ⟨[⟨"c", "a", "k1", "n", "b"⟩], []⟩
        { clientId := "c", host := "host", agentId := "a", idemKey := "k1",
          nonce := "n2", tsBucket := "b2",
          records := [⟨5, "auth", "lineA", []⟩] } =
        backendIngestLogs (fun _ => "d") 1000 false
          ⟨[⟨"c", "a", "k1", "n", "b"⟩], []⟩
          { clientId := "c", host := "host", agentId := "a", idemKey := "k1",
            nonce := "n2", tsBucket := "b2",
            records := [] } :=
  ingest_duplicate_ignores_payload (fun _ => "d") 1000 false
    ⟨[⟨"c", "a", "k1", "n", "b"⟩], []⟩
    { clientId := "c", host := "host", agentId := "a", idemKey := "k1",
      nonce := "n2", tsBucket := "b2", records := [] }
    [⟨5, "auth", "lineA", []⟩] []
    (by decide)

lemma rateLimitRetryAfter_bounds (limit base maxRA count : Nat)
    (hb : 1 ≤ base) (hm : base ≤ maxRA) (hc : limit < count) :
    base ≤ rateLimitRetryAfter limit base maxRA count ∧
      rateLimitRetryAfter limit base maxRA count ≤ maxRA := by
  have hov : ¬(count - limit = 0) := by omega
  have hs1 : 1 ≤ max 1 (limit / 5) := le_max_left 1 _
  have hceil : 1 ≤ (count - limit + max 1 (limit / 5) - 1) / max 1 (limit / 5) :=
    (Nat.one_le_div_iff (by omega)).mpr (by omega)
  simp only [rateLimitRetryAfter, if_neg hov]
  constructor
  · exact le_trans
      (le_min hm (Nat.le_add_right base _))
      (le_max_right 1 _)
  · exact max_le (le_trans hb hm) (min_le_left _ _)

/-- C8: when the recently-accepted record count for (tenant, agent) in the
sliding window exceeds the ceiling, sqlite_local ingest_logs rejects the
request with HTTP 429 whose Retry-After is the overage-scaled value of
_rate_limit_headers, bounded between the configured base and maximum, and
nothing is persisted: the state comes back unchanged. -/
theorem ingest_backpressure_rejected (window limit base maxRA : Nat)
    (sha : String → String) (now : Nat) (q : Bool) (st : GateState) (rq : IngestReq)
    (hno : ∀ e ∈ st.idem,
      ¬(e.clientId = rq.clientId ∧ e.agentId = rq.agentId ∧ e.idemKey = rq.idemKey))
    (hnr : ∀ e ∈ st.idem,
      ¬(e.clientId = rq.clientId ∧ e.agentId = rq.agentId ∧
          e.nonce = rq.nonce ∧ e.tsBucket = rq.tsBucket))
    (hb : 1 ≤ base) (hm : base ≤ maxRA)
    (hc : limit < recentRawCount now window rq st) :
    sqliteIngestLogs window limit base maxRA sha now q st rq =
      (.backpressure (rateLimitRetryAfter limit base maxRA
        (recentRawCount now window rq st)), st) ∧
      base ≤ rateLimitRetryAfter limit base maxRA (recentRawCount now window rq st) ∧
      rateLimitRetryAfter limit base maxRA (recentRawCount now window rq st) ≤ maxRA := by
  have h1 : st.idem.any (idemMatch rq) = false := any_idemMatch_false hno
  have h2 : st.idem.any (replayMatch rq) = false := any_replayMatch_false hnr
  have hbounds := rateLimitRetryAfter_bounds limit base maxRA
    (recentRawCount now window rq st) hb hm hc
  refine ⟨?_, hbounds.1, hbounds.2⟩
  simp [sqliteIngestLogs, h1, h2, le_of_lt hc]

/-- Witness for C8: with ceiling 2 and three recently accepted records, the
request is rejected with a Retry-After inside the configured bounds. -/
theorem ingest_backpressure_rejected_witness :
    sqliteIngestLogs 60 2 2 5 (fun _ => "d") 1000 false
        ⟨[], [⟨990, "c", "host", "a", "auth", "x", [], "h", 995⟩,
              ⟨991, "c", "host", "a", "auth", "y", [], "h", 996⟩,
              ⟨992, "c", "host", "a", "auth", "z", [], "h", 997⟩]⟩
        ⟨"c", "host", "a", "k1", "n", "b", [⟨5, "auth", "line", []⟩]⟩ =
      (.backpressure (rateLimitRetryAfter 2 2 5
        (recentRawCount 1000 60
          ⟨"c", "host", "a", "k1", "n", "b", [⟨5, "auth", "line", []⟩]⟩
          ⟨[], [⟨990, "c", "host", "a", "auth", "x", [], "h", 995⟩,
                ⟨991, "c", "host", "a", "auth", "y", [], "h", 996⟩,
                ⟨992, "c", "host", "a", "auth", "z", [], "h", 997⟩]⟩)),
        ⟨[], [⟨990, "c", "host", "a", "auth", "x", [], "h", 995⟩,
              ⟨991, "c", "host", "a", "auth", "y", [], "h", 996⟩,
              ⟨992, "c", "host", "a", "auth", "z", [], "h", 997⟩]⟩) ∧
      2 ≤ rateLimitRetryAfter 2 2 5
        (recentRawCount 1000 60
          ⟨"c", "host", "a", "k1", "n", "b", [⟨5, "auth", "line", []⟩]⟩
          ⟨[], [⟨990, "c", "host", "a", "auth", "x", [], "h", 995⟩,
                ⟨991, "c", "host", "a", "auth", "y", [], "h", 996⟩,
                ⟨992, "c", "host", "a", "auth", "z", [], "h", 997⟩]⟩) ∧
      rateLimitRetryAfter 2 2 5
        (recentRawCount 1000 60
          ⟨"c", "host", "a", "k1", "n", "b", [⟨5, "auth", "line", []⟩]⟩
          ⟨[], [⟨990, "c", "host", "a", "auth", "x", [], "h", 995⟩,
                ⟨991, "c", "host", "a", "auth", "y", [], "h", 996⟩,
                ⟨992, "c", "host", "a", "auth", "z", [], "h", 997⟩]⟩) ≤ 5 :=
  ingest_backpressure_rejected 60 2 2 5 (fun _ => "d") 1000 false
    ⟨[], [⟨990, "c", "host", "a", "auth", "x", [], "h", 995⟩,
          ⟨991, "c", "host", "a", "auth", "y", [], "h", 996⟩,
          ⟨992, "c", "host", "a", "auth", "z", [], "h", 997⟩]⟩
    ⟨"c", "host", "a", "k1", "n", "b", [⟨5, "auth", "line", []⟩]⟩
    (by decide) (by decide) (by decide) (by decide) (by decide)

/-- Counterexample to C5: a rollup without a rule hit scoring
FinalScore = 0.7·1.5 = 1.05 is classified High, while a rollup with a rule
hit scoring FinalScore = 1 + 0.7·0.02 = 1.014 is classified Critical, so a
greater-or-equal FinalScore receives a strictly smaller severity rank. -/
theorem hybrid_monotonicity_counterexample :
    finalScore 1 (1 / 50) 0 ≤ finalScore 0 (3 / 2) 0 ∧
      sevRank (hybridSeverity 0 (finalScore 0 (3 / 2) 0)) <
        sevRank (hybridSeverity 1 (finalScore 1 (1 / 50) 0)) := by
  have h1 : finalScore 0 (3 / 2) 0 = 21 / 20 := by
    norm_num [finalScore, W_RULE, W_ML, W_FP]
  have h2 : finalScore 1 (1 / 50) 0 = 507 / 500 := by
    norm_num [finalScore, W_RULE, W_ML, W_FP]
  rw [h1, h2]
  refine ⟨by norm_num, ?_⟩
  have e1 : hybridSeverity 0 (21 / 20) = .high := by
    simp only [hybridSeverity]
    rw [if_neg (by norm_num), if_pos (by norm_num)]
  have e2 : hybridSeverity 1 (507 / 500) = .critical := by
    simp only [hybridSeverity]
    rw [if_pos (by norm_num)]
  rw [e1, e2]
  norm_num [sevRank]

/-- C5 amended: hybrid severity is monotonic in FinalScore among rollups with
the same RuleHit value: for a fixed rule_bool, a greater-or-equal
FinalScore never receives a smaller severity rank under the first-match
rule. -/
theorem hybrid_severity_monotone (ruleBool : Nat) (fs₁ fs₂ : ℚ)
    (h : fs₁ ≤ fs₂) :
    sevRank (hybridSeverity ruleBool fs₁) ≤ sevRank (hybridSeverity ruleBool fs₂) := by
  unfold hybridSeverity
  by_cases hc2 : ruleBool = 1 ∧ fs₂ > 1
  · rw [if_pos hc2]
    split_ifs <;> simp [sevRank]
  · rw [if_neg hc2]
    by_cases hc1 : ruleBool = 1 ∧ fs₁ > 1
    · exact absurd ⟨hc1.1, lt_of_lt_of_le hc1.2 h⟩ hc2
    · rw [if_neg hc1]
      by_cases h82 : fs₂ ≥ 8 / 10
      · rw [if_pos h82]
        split_ifs <;> simp [sevRank]
      · have h81 : ¬fs₁ ≥ 8 / 10 := fun hh => h82 (le_trans hh h)
        rw [if_neg h81, if_neg h82]
        by_cases h52 : fs₂ ≥ 5 / 10
        · rw [if_pos h52]
          split_ifs <;> simp [sevRank]
        · have h51 : ¬fs₁ ≥ 5 / 10 := fun hh => h52 (le_trans hh h)
          rw [if_neg h51, if_neg h52]

/-- Witness for the amended C5: FinalScores 0.6 ≤ 0.9 with the same RuleHit
map to Medium ≤ High. -/
theorem hybrid_severity_monotone_witness :
    sevRank (hybridSeverity 0 (6 / 10)) ≤ sevRank (hybridSeverity 0 (9 / 10)) :=
  hybrid_severity_monotone 0 (6 / 10) (9 / 10) (by norm_num)

/-- Counterexample to C9: in the server variant, a complete absence of
training data at first start is not fatal — the detector silently trains
the dummy stub model instead of refusing to start. -/
theorem outlier_empty_training_not_fatal :
    mlDetectLoadOrTrain false [] = .trained mlDetectDummyX ∧
      mlDetectLoadOrTrain false [] ≠ .fatal := by
  refine ⟨rfl, ?_⟩
  simp [mlDetectLoadOrTrain]

/-- C9 amended: at first start without a model artifact, the src/detect
variant (ml_dedct.py) treats an empty training set as fatal and fits
directly on any non-empty set (thin or not), while the server variant
(ml_detect.py) degrades every training set of fewer than 50 rows —
including an empty one — to the dummy stub model, is never fatal, and fits
directly on 50 or more rows. -/
theorem outlier_first_start_amended (df3 df3big : List (ℚ × ℚ × ℚ))
    (df5 : List (ℚ × ℚ × ℚ × ℚ × ℚ))
    (h3 : df3.length < 50) (h3b : 50 ≤ df3big.length) (h5 : df5 ≠ []) :
    mlDedctLoadOrTrain false [] = .fatal ∧
      mlDedctLoadOrTrain false df5 = .trained df5 ∧
      mlDetectLoadOrTrain false df3 = .trained mlDetectDummyX ∧
      mlDetectLoadOrTrain false df3 ≠ .fatal ∧
      mlDetectLoadOrTrain false df3big = .trained df3big := by
  refine ⟨rfl, ?_, ?_, ?_, ?_⟩
  · simp [mlDedctLoadOrTrain, h5]
  · simp [mlDetectLoadOrTrain, h3]
  · simp [mlDetectLoadOrTrain, h3]
  · simp [mlDetectLoadOrTrain]
    omega

/-- Witness for the amended C9: empty server-side data yields the stub, fifty
rows are fitted directly, and one non-empty row trains the src/detect
variant. -/
theorem outlier_first_start_amended_witness :
    mlDedctLoadOrTrain false [] = .fatal ∧
      mlDedctLoadOrTrain false [(1, 1, 1, 1, 1)] = .trained [(1, 1, 1, 1, 1)] ∧
      mlDetectLoadOrTrain false [] = .trained mlDetectDummyX ∧
      mlDetectLoadOrTrain false [] ≠ .fatal ∧
      mlDetectLoadOrTrain false (List.replicate 50 ((0 : ℚ), (0 : ℚ), (0 : ℚ))) =
        .trained (List.replicate 50 ((0 : ℚ), (0 : ℚ), (0 : ℚ))) :=
  outlier_first_start_amended [] (List.replicate 50 ((0 : ℚ), (0 : ℚ), (0 : ℚ)))
    [(1, 1, 1, 1, 1)]
    (by decide) (by simp) (by simp)

lemma rkey_aggPatch (nr r : FeatureRollup) : rkey (aggPatch nr r) = rkey r := rfl

lemma aggFields_aggPatch (nr r : FeatureRollup) :
    aggFields (aggPatch nr r) = aggFields nr := rfl

lemma detectorFields_aggPatch (nr r : FeatureRollup) :
    detectorFields (aggPatch nr r) = detectorFields r := rfl

lemma rkey_aggRow (w now ret : Nat) (logs : List NormRow) (k : RKey) :
    rkey (aggRow w now ret logs k) = k := rfl

lemma aggPatch_self (nr r : FeatureRollup) (h : aggFields r = aggFields nr) :
    aggPatch nr r = r := by
  cases r
  cases nr
  simp only [aggFields, Prod.mk.injEq] at h
  simp only [aggPatch]
  obtain ⟨h1, h2, h3, h4, h5⟩ := h
  rw [h1, h2, h3, h4, h5]

lemma upsertAgg_upToDate (t : List FeatureRollup) (nr : FeatureRollup) :
    upToDate nr (upsertAgg t nr) := by
  unfold upsertAgg
  split
  case isTrue hany =>
    rw [List.any_eq_true] at hany
    obtain ⟨r₀, hr₀, hk₀⟩ := hany
    rw [decide_eq_true_eq] at hk₀
    constructor
    · refine ⟨aggPatch nr r₀, ?_, by rw [rkey_aggPatch, hk₀]⟩
      have h₁ : (fun r => if rkey r = rkey nr then aggPatch nr r else r) r₀ = aggPatch nr r₀ := by
        simp [hk₀]
      exact h₁ ▸ List.mem_map_of_mem _ hr₀
    · intro r' hr' hkey
      obtain ⟨r, hr, rfl⟩ := List.mem_map.mp hr'
      by_cases hk : rkey r = rkey nr
      · rw [if_pos hk, aggFields_aggPatch]
      · rw [if_neg hk] at hkey ⊢
        exact absurd hkey hk
  case isFalse hany =>
    constructor
    · exact ⟨nr, List.mem_append_right _ (List.mem_singleton.mpr rfl), rfl⟩
    · intro r hr hkey
      rcases List.mem_append.mp hr with hl | hr1
      · exfalso
        apply hany
        rw [List.any_eq_true]
        exact ⟨r, hl, decide_eq_true hkey⟩
      · rw [List.mem_singleton.mp hr1]

lemma upsertAgg_preserves (t : List FeatureRollup) (nr nr' : FeatureRollup)
    (hk : rkey nr ≠ rkey nr') (h : upToDate nr t) : upToDate nr (upsertAgg t nr') := by
  obtain ⟨⟨r₀, hr₀, hk₀⟩, hall⟩ := h
  unfold upsertAgg
  split
  case isTrue hany =>
    constructor
    · refine ⟨r₀, ?_, hk₀⟩
      have h₁ : (fun r => if rkey r = rkey nr' then aggPatch nr' r else r) r₀ = r₀ := by
        simp [hk₀, hk]
      exact h₁ ▸ List.mem_map_of_mem _ hr₀
    · intro r' hr' hkey
      obtain ⟨r, hr, rfl⟩ := List.mem_map.mp hr'
      by_cases hk1 : rkey r = rkey nr'
      · rw [if_pos hk1, rkey_aggPatch] at hkey
        exact absurd (hkey ▸ hk1) hk
      · rw [if_neg hk1] at hkey ⊢
        exact hall r hr hkey
  case isFalse hany =>
    constructor
    · exact ⟨r₀, List.mem_append_left _ hr₀, hk₀⟩
    · intro r hr hkey
      rcases List.mem_append.mp hr with hl | hr1
      · exact hall r hl hkey
      · rw [List.mem_singleton.mp hr1] at hkey
        exact absurd hkey.symm hk

lemma upsertAgg_id (t : List FeatureRollup) (nr : FeatureRollup)
    (h : upToDate nr t) : upsertAgg t nr = t := by
  obtain ⟨⟨r₀, hr₀, hk₀⟩, hall⟩ := h
  unfold upsertAgg
  rw [if_pos (List.any_eq_true.mpr ⟨r₀, hr₀, decide_eq_true hk₀⟩)]
  have h₁ : (t.map fun r => if rkey r = rkey nr then aggPatch nr r else r) =
      t.map fun r => r := by
    apply List.map_congr_left
    intro r hr
    by_cases hk : rkey r = rkey nr
    · rw [if_pos hk]
      exact aggPatch_self nr r (hall r hr hk)
    · rw [if_neg hk]
  rw [h₁, List.map_id']

lemma fold_upsert_preserve (A : RKey → FeatureRollup) (ks : List RKey)
    (nr : FeatureRollup) :
    ∀ t : List FeatureRollup, (∀ k ∈ ks, rkey nr ≠ rkey (A k)) → upToDate nr t →
      upToDate nr (ks.foldl (fun acc k => upsertAgg acc (A k)) t) := by
  induction ks with
  | nil => exact fun t _ h => h
  | cons k ks ih =>
    intro t hk h
    rw [List.foldl_cons]
    exact ih _ (fun k' hk' => hk k' (List.mem_cons_of_mem _ hk'))
      (upsertAgg_preserves t nr (A k) (hk k (List.mem_cons_self _ _)) h)

lemma fold_upsert_upToDate (A : RKey → FeatureRollup)
    (hA : ∀ k, rkey (A k) = k) (ks : List RKey) :
    ∀ t : List FeatureRollup, ks.Nodup → ∀ k ∈ ks,
      upToDate (A k) (ks.foldl (fun acc k' => upsertAgg acc (A k')) t) := by
  induction ks with
  | nil => intro t _ k hk; exact absurd hk (List.not_mem_nil k)
  | cons k₀ ks ih =>
    intro t hnd k hk
    rw [List.foldl_cons]
    rcases List.mem_cons.mp hk with rfl | hmem
    · refine fold_upsert_preserve A ks (A k) _ ?_ (upsertAgg_upToDate t (A k))
      intro k' hk'
      rw [hA k, hA k']
      intro hkk
      exact (List.nodup_cons.mp hnd).1 (hkk ▸ hk')
    · exact ih _ (List.nodup_cons.mp hnd).2 k hmem

lemma fold_upsert_id (A : RKey → FeatureRollup) (ks : List RKey) :
    ∀ t : List FeatureRollup, (∀ k ∈ ks, upToDate (A k) t) →
      ks.foldl (fun acc k => upsertAgg acc (A k)) t = t := by
  induction ks with
  | nil => exact fun t _ => rfl
  | cons k ks ih =>
    intro t h
    rw [List.foldl_cons, upsertAgg_id t (A k) (h k (List.mem_cons_self _ _))]
    exact ih t fun k' hk' => h k' (List.mem_cons_of_mem _ hk')

lemma doRollup_correct (w ret now : Nat) (logs : List NormRow)
    (t : List FeatureRollup) :
    ∀ k ∈ rollupKeys w now ret logs,
      upToDate (aggRow w now ret logs k) (doRollup w ret now logs t) :=
  fold_upsert_upToDate (aggRow w now ret logs) (rkey_aggRow w now ret logs)
    (rollupKeys w now ret logs) t (List.nodup_dedup _)

lemma doRollup_idem (w ret now : Nat) (logs : List NormRow)
    (t : List FeatureRollup) :
    doRollup w ret now logs (doRollup w ret now logs t) = doRollup w ret now logs t :=
  fold_upsert_id (aggRow w now ret logs) (rollupKeys w now ret logs)
    (doRollup w ret now logs t) (doRollup_correct w ret now logs t)

lemma fold_upsert_shape (A : RKey → FeatureRollup) (ks : List RKey) :
    ∀ t : List FeatureRollup,
      ∃ (f : FeatureRollup → FeatureRollup) (tail : List FeatureRollup),
        ks.foldl (fun acc k => upsertAgg acc (A k)) t = t.map f ++ tail ∧
          ∀ r, detectorFields (f r) = detectorFields r ∧ rkey (f r) = rkey r := by
  induction ks with
  | nil =>
    intro t
    exact ⟨fun r => r, [], by simp, fun r => ⟨rfl, rfl⟩⟩
  | cons k ks ih =>
    intro t
    have hstep : ∃ (u : FeatureRollup → FeatureRollup) (tail₀ : List FeatureRollup),
        upsertAgg t (A k) = t.map u ++ tail₀ ∧
          ∀ r, detectorFields (u r) = detectorFields r ∧ rkey (u r) = rkey r := by
      unfold upsertAgg
      split
      · refine ⟨fun r => if rkey r = rkey (A k) then aggPatch (A k) r else r, [], by simp, ?_⟩
        intro r
        by_cases hk : rkey r = rkey (A k)
        · simp only [if_pos hk]
          exact ⟨detectorFields_aggPatch _ _, rkey_aggPatch _ _⟩
        · simp [hk]
      · exact ⟨fun r => r, [A k], by simp, fun r => ⟨rfl, rfl⟩⟩
    obtain ⟨u, tail₀, he, hu⟩ := hstep
    obtain ⟨f, tail, he', hf⟩ := ih (upsertAgg t (A k))
    rw [List.foldl_cons] at *
    refine ⟨fun r => f (u r), tail₀.map f ++ tail, ?_, ?_⟩
    · rw [he', he, List.map_append, List.map_map, List.append_assoc]
      rfl
    · intro r
      exact ⟨(hf (u r)).1.trans (hu r).1, (hf (u r)).2.trans (hu r).2⟩

lemma doRollup_flags (w ret now : Nat) (logs : List NormRow)
    (t : List FeatureRollup) :
    ∀ r ∈ t, ∃ r' ∈ doRollup w ret now logs t,
      rkey r' = rkey r ∧ detectorFields r' = detectorFields r := by
  obtain ⟨f, tail, he, hf⟩ := fold_upsert_shape (aggRow w now ret logs)
    (rollupKeys w now ret logs) t
  intro r hr
  refine ⟨f r, ?_, (hf r).2, (hf r).1⟩
  unfold doRollup
  rw [he]
  exact List.mem_append_left _ (List.mem_map_of_mem f hr)

lemma doRollup_iterate (w ret now : Nat) (logs : List NormRow)
    (t : List FeatureRollup) (n : Nat) :
    (fun t' => doRollup w ret now logs t')^[n + 1] t = doRollup w ret now logs t := by
  induction n with
  | zero => rfl
  | succ n ih =>
    rw [Function.iterate_succ_apply', ih]
    exact doRollup_idem w ret now logs t

lemma late_mem_retained (now ret : Nat) (logs : List NormRow) (late : NormRow)
    (h : now - ret ≤ late.ts) : late ∈ retainedLogs now ret (logs ++ [late]) := by
  unfold retainedLogs
  rw [List.mem_filter]
  exact ⟨List.mem_append_right _ (List.mem_singleton.mpr rfl), decide_eq_true h⟩

lemma late_key_mem (w now ret : Nat) (logs : List NormRow) (late : NormRow)
    (h : now - ret ≤ late.ts) :
    logKey w late ∈ rollupKeys w now ret (logs ++ [late]) := by
  unfold rollupKeys
  rw [List.mem_dedup]
  exact List.mem_map_of_mem (logKey w) (late_mem_retained now ret logs late h)

lemma late_mem_group (w now ret : Nat) (logs : List NormRow) (late : NormRow)
    (h : now - ret ≤ late.ts) :
    late ∈ rollupGroup w (retainedLogs now ret (logs ++ [late])) (logKey w late) := by
  unfold rollupGroup
  rw [List.mem_filter]
  exact ⟨late_mem_retained now ret logs late h, decide_eq_true rfl⟩

/-- C4: rerunning do_rollup any number of times over the same raw records is
the same as running it once, every materialized key's row carries exactly
the aggregates computed from the retained records, and after appending a
late-arriving record whose timestamp is within retention, that record is a
member of its window's group, the window's key is materialized, and every
row of that key carries the aggregates recomputed over the records
including the late one. -/
theorem rollup_rerun_convergence (w ret now n : Nat) (logs : List NormRow)
    (t : List FeatureRollup) (late : NormRow)
    (hlate : now - ret ≤ late.ts) :
    (fun t' => doRollup w ret now logs t')^[n + 1] t = doRollup w ret now logs t ∧
      (∀ k ∈ rollupKeys w now ret logs,
        (∃ r ∈ doRollup w ret now logs t, rkey r = k) ∧
          ∀ r ∈ doRollup w ret now logs t, rkey r = k →
            aggFields r = aggFields (aggRow w now ret logs k)) ∧
      late ∈ rollupGroup w (retainedLogs now ret (logs ++ [late])) (logKey w late) ∧
      (∃ r ∈ doRollup w ret now (logs ++ [late]) t, rkey r = logKey w late) ∧
      ∀ r ∈ doRollup w ret now (logs ++ [late]) t, rkey r = logKey w late →
        aggFields r = aggFields (aggRow w now ret (logs ++ [late]) (logKey w late)) := by
  refine ⟨doRollup_iterate w ret now logs t n, ?_, late_mem_group w now ret logs late hlate, ?_, ?_⟩
  · intro k hk
    have h := doRollup_correct w ret now logs t k hk
    rw [upToDate, rkey_aggRow] at h
    exact h
  · have h := doRollup_correct w ret now (logs ++ [late]) t _
      (late_key_mem w now ret logs late hlate)
    rw [upToDate, rkey_aggRow] at h
    exact h.1
  · have h := doRollup_correct w ret now (logs ++ [late]) t _
      (late_key_mem w now ret logs late hlate)
    rw [upToDate, rkey_aggRow] at h
    exact h.2

/-- Witness for C4 at window 300 s, retention 600 s, now = 1000, one prior
log row, an empty table and a late arrival at timestamp 800. -/
theorem rollup_rerun_convergence_witness :
    (fun t' => doRollup 300 600 1000 [c4Log] t')^[1 + 1] [] = doRollup 300 600 1000 [c4Log] [] ∧
      (∀ k ∈ rollupKeys 300 1000 600 [c4Log],
        (∃ r ∈ doRollup 300 600 1000 [c4Log] [], rkey r = k) ∧
          ∀ r ∈ doRollup 300 600 1000 [c4Log] [], rkey r = k →
            aggFields r = aggFields (aggRow 300 1000 600 [c4Log] k)) ∧
      c4Late ∈ rollupGroup 300 (retainedLogs 1000 600 ([c4Log] ++ [c4Late])) (logKey 300 c4Late) ∧
      (∃ r ∈ doRollup 300 600 1000 ([c4Log] ++ [c4Late]) [], rkey r = logKey 300 c4Late) ∧
      ∀ r ∈ doRollup 300 600 1000 ([c4Log] ++ [c4Late]) [], rkey r = logKey 300 c4Late →
        aggFields r = aggFields (aggRow 300 1000 600 ([c4Log] ++ [c4Late]) (logKey 300 c4Late)) :=
  rollup_rerun_convergence 300 600 1000 1 [c4Log] [] c4Late (by decide)

/-! ## Outlier Detector cycle theorems -/

lemma hybridRowPatch_mlProcessed (k : RKey) (fs : Option ℚ) (r : FeatureRollup) :
    (hybridRowPatch k fs r).mlProcessed = r.mlProcessed := by
  unfold hybridRowPatch
  by_cases h : rkey r = k
  · rw [if_pos h]
    cases fs <;> rfl
  · rw [if_neg h]

lemma hybridRowPatch_rkey (k : RKey) (fs : Option ℚ) (r : FeatureRollup) :
    rkey (hybridRowPatch k fs r) = rkey r := by
  unfold hybridRowPatch
  by_cases h : rkey r = k
  · rw [if_pos h]
    cases fs <;> rfl
  · rw [if_neg h]

lemma hybridMarkProcessed_shape (ups : List (RKey × Option ℚ)) :
    ∀ t : List FeatureRollup, ∃ f : FeatureRollup → FeatureRollup,
      hybridMarkProcessed ups t = t.map f ∧
        ∀ r, (f r).mlProcessed = r.mlProcessed ∧ rkey (f r) = rkey r := by
  induction ups with
  | nil =>
    intro t
    exact ⟨fun r => r, by simp [hybridMarkProcessed], fun r => ⟨rfl, rfl⟩⟩
  | cons kv ups ih =>
    intro t
    obtain ⟨f, he, hf⟩ := ih (hybridApplyUpdate kv.1 kv.2 t)
    refine ⟨fun r => f (hybridRowPatch kv.1 kv.2 r), ?_, ?_⟩
    · show hybridMarkProcessed ups (hybridApplyUpdate kv.1 kv.2 t) =
        t.map fun r => f (hybridRowPatch kv.1 kv.2 r)
      rw [he, hybridApplyUpdate, List.map_map]
      rfl
    · intro r
      exact ⟨(hf _).1.trans (hybridRowPatch_mlProcessed kv.1 kv.2 r),
        (hf _).2.trans (hybridRowPatch_rkey kv.1 kv.2 r)⟩

/-- Counterexample to C3: run_iforest selects only rollups of the trailing
hour, so a cycle at now = 100000 leaves this older unprocessed rollup
untouched — not every rollup that had ml_processed = false ends the cycle
with ml_processed = true. -/
theorem iforest_stale_row_counterexample :
    runIforest 100000 id (fun _ => 0) 0 [staleRollupRow] = [staleRollupRow] ∧
      staleRollupRow.mlProcessed = false :=
  ⟨rfl, rfl⟩

/-- C3 amended: in one Outlier Detector cycle every rollup with
ml_processed = false whose window lies in the trailing hour is scored with
the fitted scaler and decision function, gets ml_anomaly = (score ≥
threshold) and ml_processed = true unconditionally, and every other row is
untouched; an immediate rerun selects zero rows and recomputes nothing;
and a true ml_processed flag is reset by no stage — not by the scoring
cycle, the rollup upsert, the hybrid mark-processed update, or the EWMA
anomaly update. -/
theorem iforest_cycle_amended (now : Nat) (scaler : ℚ × ℚ × ℚ → ℚ × ℚ × ℚ)
    (dec : ℚ × ℚ × ℚ → ℚ) (th : ℚ) (t : List FeatureRollup)
    (ups : List (RKey × Option ℚ)) (w ret ws : Nat) (logs : List NormRow) :
    List.Forall₂ (fun r r' =>
        (iforestEligible now r = true → r' = iforestUpdate scaler dec th r ∧
          r'.mlProcessed = true ∧ r'.mlScore = some (dec (scaler (rollupFeatures r))) ∧
          r'.mlAnomaly = decide (dec (scaler (rollupFeatures r)) ≥ th)) ∧
        (iforestEligible now r = false → r' = r))
      t (runIforest now scaler dec th t) ∧
      iforestTargets now (runIforest now scaler dec th t) = [] ∧
      runIforest now scaler dec th (runIforest now scaler dec th t) =
        runIforest now scaler dec th t ∧
      (∀ r ∈ t, r.mlProcessed = true →
        ∃ r' ∈ doRollup w ret now logs t, rkey r' = rkey r ∧ r'.mlProcessed = true) ∧
      (∀ r ∈ t, r.mlProcessed = true →
        ∃ r' ∈ hybridMarkProcessed ups t, rkey r' = rkey r ∧ r'.mlProcessed = true) ∧
      ∀ r ∈ t, r.mlProcessed = true →
        ∃ r' ∈ ewmaSetAnomaly ws t, rkey r' = rkey r ∧ r'.mlProcessed = true := by
  refine ⟨?_, ?_, ?_, ?_, ?_, ?_⟩
  · unfold runIforest
    induction t with
    | nil => exact List.Forall₂.nil
    | cons r t ih =>
      rw [List.map_cons]
      refine List.Forall₂.cons ⟨?_, ?_⟩ ih
      · intro he
        rw [if_pos he]
        exact ⟨rfl, rfl, rfl, rfl⟩
      · intro hne
        rw [if_neg (by rw [hne]; exact Bool.false_ne_true)]
  · unfold iforestTargets runIforest
    rw [List.filter_eq_nil_iff]
    intro r' hr'
    obtain ⟨r, hr, rfl⟩ := List.mem_map.mp hr'
    by_cases h : iforestEligible now r = true
    · rw [if_pos h]
      simp [iforestEligible, iforestUpdate]
    · rw [if_neg h]
      simp_all
  · unfold runIforest
    rw [List.map_map]
    apply List.map_congr_left
    intro r _
    by_cases h : iforestEligible now r = true
    · have h₂ : iforestEligible now (iforestUpdate scaler dec th r) = false := by
        simp [iforestEligible, iforestUpdate]
      simp only [Function.comp_apply, if_pos h, h₂]
      rw [if_neg Bool.false_ne_true]
    · simp only [Function.comp_apply, if_neg h]
  · intro r hr hp
    obtain ⟨r', hr', hkey, hdf⟩ := doRollup_flags w ret now logs t r hr
    refine ⟨r', hr', hkey, ?_⟩
    have h₃ : r'.mlProcessed = r.mlProcessed := by
      have h₄ := hdf
      simp only [detectorFields, Prod.mk.injEq] at h₄
      exact h₄.2.2.1
    rw [h₃, hp]
  · intro r hr hp
    obtain ⟨f, he, hf⟩ := hybridMarkProcessed_shape ups t
    refine ⟨f r, by rw [he]; exact List.mem_map_of_mem f hr, (hf r).2, ?_⟩
    rw [(hf r).1, hp]
  · intro r hr hp
    refine ⟨if r.windowStart = ws then { r with ewmaAnomaly := true } else r, ?_, ?_, ?_⟩
    · unfold ewmaSetAnomaly
      exact List.mem_map_of_mem _ hr
    · by_cases h : r.windowStart = ws
      · rw [if_pos h]
        rfl
      · rw [if_neg h]
    · by_cases h : r.windowStart = ws
      · rw [if_pos h]
        exact hp
      · rw [if_neg h]
        exact hp

/-! ## Pattern Scanner lemmas -/

lemma mem_take_filter_mono {α : Type} (p q : α → Bool) (x : α)
    (hpq : ∀ y, q y = true → p y = true) :
    ∀ (l : List α) (B : Nat), x ∈ (l.filter p).take B → q x = true →
      x ∈ (l.filter q).take B := by
  intro l
  induction l with
  | nil => intro B h _; simp at h
  | cons y l ih =>
    intro B h hq
    cases B with
    | zero => simp at h
    | succ B =>
      by_cases hp : p y = true
      · rw [List.filter_cons_of_pos hp, List.take_succ_cons] at h
        rcases List.mem_cons.mp h with rfl | hmem
        · rw [List.filter_cons_of_pos hq, List.take_succ_cons]
          exact List.mem_cons_self _ _
        · by_cases hqy : q y = true
          · rw [List.filter_cons_of_pos hqy, List.take_succ_cons]
            exact List.mem_cons_of_mem _ (ih B hmem hq)
          · rw [List.filter_cons_of_neg (by simp_all)]
            have h₁ : x ∈ (l.filter q).take B := ih B hmem hq
            have h₂ : (l.filter q).take B = ((l.filter q).take (B + 1)).take B := by
              rw [List.take_take]
              rw [Nat.min_eq_left (Nat.le_succ B)]
            rw [h₂] at h₁
            exact List.take_subset _ _ h₁
      · have hqy : ¬q y = true := fun hh => hp (hpq y hh)
        rw [List.filter_cons_of_neg (by simp_all)] at h
        rw [List.filter_cons_of_neg (by simp_all)]
        exact ih (B + 1) h hq

lemma filter_map_comm {α β : Type} (f : α → β) (p : β → Bool) (l : List α) :
    (l.map f).filter p = (l.filter fun y => p (f y)).map f := by
  induction l with
  | nil => rfl
  | cons y l ih =>
    by_cases h : p (f y) = true
    · simp [List.filter_cons, h, ih]
    · simp [List.filter_cons, h, ih]

lemma scanEligible_flagged (now retSec : Nat) (i : ScanItem) :
    scanEligible now retSec { i with processedByYara := true } = false := by
  simp [scanEligible]

/-- C7: in one scanner cycle, a file item whose source file is missing is
scanned to zero evidence yet counted successful and marked
processed_by_yara; an item whose scan raises any other exception is not
counted successful, keeps its flag clear, and is selected again by the
next cycle's fetch; and the evidence rows are all persisted by the step
that precedes the processed-flag update, so the state at a crash between
the two steps holds every matched evidence row while all items are still
unflagged — a re-scan, never a dropped match. -/
theorem scanner_failure_policy (now retSec batchSize : Nat)
    (att : ScanItem → ScanAttempt) (db : ScanDB) (i j : ScanItem)
    (hnd : (db.items.map fun x => x.logId).Nodup)
    (hi : i ∈ fetchTargets now retSec batchSize db.items)
    (hmiss : att i = .fileMissing)
    (hj : j ∈ fetchTargets now retSec batchSize db.items)
    (herr : att j = .scanFailed) :
    scanOne i.logId (att i) = (i.logId, [], true) ∧
      i.logId ∈ scanSuccessIds now retSec batchSize att db ∧
      (∃ i' ∈ (runScanCycle now retSec batchSize att db).items,
        i'.logId = i.logId ∧ i'.processedByYara = true) ∧
      scanOne j.logId (att j) = (j.logId, [], false) ∧
      j.logId ∉ scanSuccessIds now retSec batchSize att db ∧
      j ∈ fetchTargets now retSec batchSize
        (runScanCycle now retSec batchSize att db).items ∧
      (runScanCycleCrash now retSec batchSize att db).events =
        db.events ++ scanEvents now retSec batchSize att db ∧
      (runScanCycleCrash now retSec batchSize att db).items = db.items ∧
      (runScanCycle now retSec batchSize att db).events =
        (runScanCycleCrash now retSec batchSize att db).events := by
  have hsub : ∀ x ∈ fetchTargets now retSec batchSize db.items, x ∈ db.items :=
    fun x hx => List.filter_subset' _ (List.take_subset _ _ hx)
  have hinj : ∀ x ∈ db.items, ∀ y ∈ db.items, x.logId = y.logId → x = y :=
    fun x hx y hy => List.inj_on_of_nodup_map hnd hx hy
  have hidMem : i.logId ∈ scanSuccessIds now retSec batchSize att db := by
    apply List.mem_map.mpr
    refine ⟨(i.logId, [], true), ?_, rfl⟩
    apply List.mem_filter.mpr
    refine ⟨?_, rfl⟩
    apply List.mem_map.mpr
    exact ⟨i, hi, by rw [hmiss]; rfl⟩
  have hjNot : j.logId ∉ scanSuccessIds now retSec batchSize att db := by
    intro hmem
    obtain ⟨x, hxf, hx1⟩ := List.mem_map.mp hmem
    obtain ⟨hxr, hx2⟩ := List.mem_filter.mp hxf
    obtain ⟨i₀, hi₀, hx⟩ := List.mem_map.mp hxr
    have hfst : (scanOne i₀.logId (att i₀)).1 = i₀.logId := by
      cases att i₀ <;> rfl
    have hid : i₀.logId = j.logId := by rw [← hx1, ← hx, hfst]
    have : i₀ = j := hinj i₀ (hsub i₀ hi₀) j (hsub j hj) hid
    rw [this, herr] at hx
    rw [← hx] at hx2
    exact Bool.false_ne_true hx2
  refine ⟨by rw [hmiss]; rfl, hidMem, ?_, by rw [herr]; rfl, hjNot, ?_, rfl, rfl, rfl⟩
  · refine ⟨{ i with processedByYara := true }, ?_, rfl, rfl⟩
    show _ ∈ db.items.map fun i₀ =>
      if i₀.logId ∈ scanSuccessIds now retSec batchSize att db then
        { i₀ with processedByYara := true } else i₀
    have h₁ : (fun i₀ =>
        if i₀.logId ∈ scanSuccessIds now retSec batchSize att db then
          { i₀ with processedByYara := true } else i₀) i =
        { i with processedByYara := true } := by
      simp only [if_pos hidMem]
    exact h₁ ▸ List.mem_map_of_mem _ (hsub i hi)
  · show j ∈ fetchTargets now retSec batchSize (db.items.map fun i₀ =>
      if i₀.logId ∈ scanSuccessIds now retSec batchSize att db then
        { i₀ with processedByYara := true } else i₀)
    set f : ScanItem → ScanItem := fun i₀ =>
      if i₀.logId ∈ scanSuccessIds now retSec batchSize att db then
        { i₀ with processedByYara := true } else i₀ with hf
    have hfj : f j = j := by simp only [hf, if_neg hjNot]
    have hpj : scanEligible now retSec j = true :=
      (List.mem_filter.mp (List.take_subset _ _ hj)).2
    have hmono : ∀ y, scanEligible now retSec (f y) = true →
        scanEligible now retSec y = true := by
      intro y hy
      by_cases hins : y.logId ∈ scanSuccessIds now retSec batchSize att db
      · have hfy : f y = { y with processedByYara := true } := by
          simp only [hf, if_pos hins]
        rw [hfy, scanEligible_flagged] at hy
        exact absurd hy Bool.false_ne_true
      · have hfy : f y = y := by simp only [hf, if_neg hins]
        rwa [hfy] at hy
    unfold fetchTargets
    rw [filter_map_comm]
    have hjin : j ∈ ((db.items.filter fun y =>
        scanEligible now retSec (f y)).take batchSize) := by
      apply mem_take_filter_mono (scanEligible now retSec)
        (fun y => scanEligible now retSec (f y)) j hmono db.items batchSize hj
      rw [hfj]
      exact hpj
    have h₂ : ((db.items.filter fun y => scanEligible now retSec (f y)).map f).take
        batchSize = ((db.items.filter fun y =>
          scanEligible now retSec (f y)).take batchSize).map f := by
      rw [List.map_take]
    rw [h₂]
    exact hfj ▸ List.mem_map_of_mem f hjin

/-- Witness for C7 on the two-item store: the missing-file item is marked
processed with zero evidence, the erroring item stays selectable, and the
crash state between persist and mark holds the evidence with items
untouched. -/
theorem scanner_failure_policy_witness :
    scanOne c7ItemA.logId (c7Att c7ItemA) = (c7ItemA.logId, [], true) ∧
      c7ItemA.logId ∈ scanSuccessIds 100 300 10 c7Att c7DB ∧
      (∃ i' ∈ (runScanCycle 100 300 10 c7Att c7DB).items,
        i'.logId = c7ItemA.logId ∧ i'.processedByYara = true) ∧
      scanOne c7ItemB.logId (c7Att c7ItemB) = (c7ItemB.logId, [], false) ∧
      c7ItemB.logId ∉ scanSuccessIds 100 300 10 c7Att c7DB ∧
      c7ItemB ∈ fetchTargets 100 300 10 (runScanCycle 100 300 10 c7Att c7DB).items ∧
      (runScanCycleCrash 100 300 10 c7Att c7DB).events =
        c7DB.events ++ scanEvents 100 300 10 c7Att c7DB ∧
      (runScanCycleCrash 100 300 10 c7Att c7DB).items = c7DB.items ∧
      (runScanCycle 100 300 10 c7Att c7DB).events =
        (runScanCycleCrash 100 300 10 c7Att c7DB).events :=
  scanner_failure_policy 100 300 10 c7Att c7DB c7ItemA c7ItemB
    (by decide) (by decide) (by decide) (by decide) (by decide)

/-- C6 failing input: after 20 stable values, a spike more than ten EWMA
standard deviations above the trailing mean is NOT flagged by run_ewma,
because the mean and standard deviation it thresholds against are computed
over the series including the spike itself, which inflates them past the
3-sigma bound — so no ewma_anomaly flag and no DetectionEvent is produced
where the specification requires exactly one. -/
theorem ewma_spike_not_flagged :
    sigmaExceeds 12 10 c6Stable 111 = true ∧ runEwmaFlagged 12 3 c6Series = false := by
  constructor
  · simp only [sigmaExceeds, ewmaMeanLast, ewmaVarLast, ewmaSums, ewmaStep, c6Stable,
      List.foldl]
    rw [decide_eq_true_eq]
    norm_num
  · have hlast : c6Series.getLastD 0 = 111 := by simp [c6Series]
    have hlen : ¬(c6Series.length < 10) := by simp [c6Series, c6Stable]
    unfold runEwmaFlagged
    rw [if_neg hlen, hlast]
    simp only [sigmaExceeds, ewmaMeanLast, ewmaVarLast, ewmaSums, ewmaStep, c6Series,
      c6Stable, List.foldl, List.cons_append, List.nil_append]
    rw [decide_eq_false_iff_not]
    norm_num

end TrustSoc
